import Mathlib

/-!
Shallow embedding of the `conv-flow` library (src/lib/flow.ts and its
util module): the `Either`-based `Layer`/`Layerable` data model, the
normalization helpers, and the `Flow` engine with `lift`, `then`
(`chain`), `to` (`converge`) and `exec`.

Modelling conventions:
* fp-ts `Either<E, T>` is the two-constructor sum `FlowEither E T`.
* A promise of a layer either resolves (`Except.ok`) or rejects
  (`Except.error`); the event loop is deterministic here, and
  `Promise.all` preserves the supplied order, so fan-out joins are lists
  in step order.
* A step invocation's observable outcome is one of: return a layerable,
  return a promise resolving to a layerable, return a promise that
  rejects, or throw synchronously (`StepOutcome`).
-/

namespace ConvFlow

/-- fp-ts `Either<E, T>`: `left` is a termination, `right` an ongoing value. -/
inductive FlowEither (E T : Type) where
  | left (e : E)
  | right (t : T)
deriving DecidableEq

/-- A `Layer<T, E>` is an array of `Either<E, T>`. -/
abbrev Layer (T E : Type) := List (FlowEither E T)

/-- An element of a layerable array: either already an `Either`, or a bare `T`
(the union `Either<E, T> | T`, made tagged). -/
inductive Elem (T E : Type) where
  | either (x : FlowEither E T)
  | bare (t : T)
deriving DecidableEq

/-- Source type `Layerable<T, E> = (Either<E, T> | T)[] | Either<E, T> | T`. -/
inductive Layerable (T E : Type) where
  | arr (xs : List (Elem T E))
  | single (x : FlowEither E T)
  | bare (t : T)
deriving DecidableEq

/-- util `liftEither`: keep a value that is already an `Either`
(`isEither` true branch), otherwise wrap it with `right`. -/
def liftEither : Elem T E → FlowEither E T
  | .either x => x
  | .bare t => .right t

/-- util `normalizeResult`: an array is mapped element-wise through
`liftEither`; anything else becomes the one-element layer `[liftEither r]`. -/
def normalizeResult : Layerable T E → Layer T E
  | .arr xs => xs.map liftEither
  | .single x => [liftEither (.either x)]
  | .bare t => [liftEither (.bare t)]

/-- util `normalizeError(mapError)`: `(e) => [left(mapError(e))]`. -/
def normalizeError (mapError : Err → E) : Err → Layer T E :=
  fun e => [FlowEither.left (mapError e)]

/-- fp-ts `isLeft` tag test. -/
def FlowEither.isLeft : FlowEither E T → Bool
  | .left _ => true
  | .right _ => false

/-- Accessing the `.right` payload (total rendering of the field access the
source performs after the `isLeft` partition). -/
def FlowEither.rightValue : FlowEither E T → Option T
  | .right t => some t
  | .left _ => none

/-- util `partitionArray`: a left fold pushing each element onto the first or
second accumulator list according to the predicate. -/
def partitionArray (arr : List α) (p : α → Bool) : List α × List α :=
  arr.foldl
    (fun acc t => if p t then (acc.1 ++ [t], acc.2) else (acc.1, acc.2 ++ [t]))
    ([], [])

/-- The source's `<Layer<U, E>>lefts` cast: the lefts of a `Layer T E`,
re-read as elements of `Layer U E` (identical termination values; any
right, of which the partition produces none here, is dropped). -/
def castLefts : List (FlowEither E T) → List (FlowEither E U)
  | [] => []
  | .left e :: rest => .left e :: castLefts rest
  | .right _ :: rest => castLefts rest

/-- Termination values of a layer, in order (specification-side view of the
`isLeft` partition's first component). -/
def leftsOf : Layer T E → List E :=
  List.filterMap fun x => match x with
    | .left e => some e
    | .right _ => none

/-- Ok payloads of a layer, in order (specification-side view of the
partition's second component mapped through `.right`). -/
def rightsOf : Layer T E → List T :=
  List.filterMap fun x => match x with
    | .right t => some t
    | .left _ => none

end ConvFlow

namespace ConvFlow

/-- Observable outcome of invoking one step function on an input. -/
inductive StepOutcome (T E Err : Type) where
  | value (v : Layerable T E)
  | resolved (v : Layerable T E)
  | rejected (e : Err)
  | thrown (e : Err)

/-- Source type `Step<S, T, E>`: a function from `S` to a layerable or a promise of one,
possibly throwing or rejecting. -/
def Step (S T E Err : Type) := S → StepOutcome T E Err

/-- Source class `Flow<S, T, E>`: a behavior function returning a promise of a layer
(which may reject), plus the stored `_mapError`. -/
structure Flow (S T E Err : Type) where
  f : S → Except Err (Layer T E)
  mapError : Err → E

/-- Method `exec(s)` invokes the behavior function. -/
def Flow.exec (fl : Flow S T E Err) (s : S) : Except Err (Layer T E) :=
  fl.f s

/-- The `try { return step(s) } catch (e) { return normalizeError(mapError)(e) }`
block in `lift`: a synchronous throw is already converted to a `Layer`,
everything else is the step's (possibly pending) result. -/
inductive LiftResult (T E Err : Type) where
  | value (v : Layerable T E)
  | promiseOk (v : Layerable T E)
  | promiseRejected (e : Err)
  | caught (l : Layer T E)

/-- The guarded invocation of one step in `lift`. -/
def tryStep (mapError : Err → E) (step : Step S T E Err) (s : S) :
    LiftResult T E Err :=
  match step s with
  | .value v => .value v
  | .resolved v => .promiseOk v
  | .rejected e => .promiseRejected e
  | .thrown e => .caught (normalizeError mapError e)

/-- The `Promise.resolve(result).then(normalizeResult).catch(normalizeError(mapError))` pipeline:
a settled value goes through `normalizeResult` (a caught layer is itself an
array of eithers, hence a layerable), a rejection through `normalizeError`. -/
def settleStep (mapError : Err → E) : LiftResult T E Err → Layer T E
  | .value v => normalizeResult v
  | .promiseOk v => normalizeResult v
  | .promiseRejected e => normalizeError mapError e
  | .caught l => normalizeResult (Layerable.arr (l.map Elem.either))

/-- Static `Flow.lift` on an array of steps: run every step on the same input with
the try/catch guard, normalize each settled result, await all in step order
(`Promise.all`) and flatten once. The resulting promise always resolves. -/
def Flow.lift (steps : List (Step S T E Err)) (mapError : Err → E) :
    Flow S T E Err where
  f := fun s =>
    Except.ok
      (((steps.map fun step => tryStep mapError step s).map
        (settleStep mapError)).flatten)
  mapError := mapError

/-- The overload of `lift` applied to a single step: the source wraps it as `[step]`. -/
def Flow.liftSingle (step : Step S T E Err) (mapError : Err → E) :
    Flow S T E Err :=
  Flow.lift [step] mapError

/-- Static `Flow._errIdentity`, `(e) => e as E`, at the type the no-mapper overloads
of `lift` permit (`E extends Error`): the identity on errors. -/
def Flow.errIdentity : Err → Err := fun e => e

/-- Calling `lift(f)` with the mapper argument omitted: the default `_errIdentity`. -/
def Flow.liftDefault (step : Step S T Err Err) : Flow S T Err Err :=
  Flow.liftSingle step Flow.errIdentity

/-- The expression `flow.exec(x).catch(normalizeError(this._mapError))`: a downstream flow
invocation whose rejection is converted with the invoking flow's mapper. -/
def execCaught (m : Err → E) (fl : Flow S U E Err) (s : S) : Layer U E :=
  match fl.exec s with
  | .ok l => l
  | .error e => normalizeError m e

/-- Method `Flow.chain`: run this flow, partition the layer with `isLeft`, invoke
every downstream flow on every right payload (rights outer, flows inner),
await all, and prepend the type-cast lefts to the flattened results. A
rejection of this flow's own behavior promise propagates.

The source builds the resulting flow with `new Flow(...)`, leaving the
constructor's `_mapError` default `_errIdentity`, an unchecked `Error → E`
cast; that slot is never read by anything modelled here (each closure
captures the invoking flow's mapper), and the typed embedding records the
invoking flow's mapper, the only function of that type available. -/
def Flow.chain (self : Flow S T E Err) (flows : List (Flow T U E Err)) :
    Flow S U E Err where
  f := fun s =>
    match self.f s with
    | .error e => .error e
    | .ok results =>
      let parts := partitionArray results FlowEither.isLeft
      let rightValues := parts.2.filterMap FlowEither.rightValue
      let rightRuns := rightValues.flatMap fun rightValue =>
        flows.map fun flow => execCaught self.mapError flow rightValue
      .ok (castLefts parts.1 ++ rightRuns.flatten)
  mapError := self.mapError

/-- Method `Flow.converge`: run this flow, partition, invoke each downstream flow
exactly once on the whole list of right payloads, await all in flow order,
and prepend the type-cast lefts to the flattened results. (The source's
`_.flatMap` over `flows` returns one promise per flow, so it is a map.) -/
def Flow.converge (self : Flow S T E Err)
    (flows : List (Flow (List T) U E Err)) : Flow S U E Err where
  f := fun s =>
    match self.f s with
    | .error e => .error e
    | .ok tArr =>
      let parts := partitionArray tArr FlowEither.isLeft
      let rightValues := parts.2.filterMap FlowEither.rightValue
      let rightRuns := flows.map fun flow =>
        execCaught self.mapError flow rightValues
      .ok (castLefts parts.1 ++ rightRuns.flatten)
  mapError := self.mapError

/-- Source type `FlowOrStep<S, T, E> = Flow<S, T, E> | Step<S, T, E>`, tagged by which
constructor produced the argument. -/
inductive FlowOrStep (S T E Err : Type) where
  | flow (fl : Flow S T E Err)
  | step (st : Step S T E Err)

/-- The argument conversion shared by `then` and `to`: keep a value the
`isFlow` check recognises as a flow, otherwise `Flow.lift(step, this._mapError)`
with the invoking flow's mapper. -/
def mkFlows (m : Err → E) (fos : List (FlowOrStep A U E Err)) :
    List (Flow A U E Err) :=
  fos.map fun x => match x with
    | .flow fl => fl
    | .step st => Flow.liftSingle st m

/-- Method `Flow.then` (named `andThen` here, `then` being a Lean keyword):
convert the variadic arguments with this flow's mapper and `chain`. -/
def Flow.andThen (self : Flow S T E Err)
    (fos : List (FlowOrStep T U E Err)) : Flow S U E Err :=
  self.chain (mkFlows self.mapError fos)

/-- Method `Flow.to`: convert the variadic arguments with this flow's mapper and
`converge`. -/
def Flow.to (self : Flow S T E Err)
    (fos : List (FlowOrStep (List T) U E Err)) : Flow S U E Err :=
  self.converge (mkFlows self.mapError fos)

/-- The downstream results of a `chain` stage as a function of the right
payloads alone: the terminated elements of the upstream layer are not among
its arguments. -/
def chainTail (m : Err → E) (flows : List (Flow T U E Err))
    (rights : List T) : Layer U E :=
  (rights.flatMap fun rv => flows.map fun fl => execCaught m fl rv).flatten

/-- The downstream results of a `converge` stage as a function of the right
payloads alone. -/
def convergeTail (m : Err → E) (flows : List (Flow (List T) U E Err))
    (rights : List T) : Layer U E :=
  (flows.map fun fl => execCaught m fl rights).flatten

/-- Runtime shapes relevant to `Flow.isFlow`: an object built by the `Flow`
constructor always carries defined `_f` and `_mapError` fields; a bare step
function carries neither; a step function may also have had properties of
those names assigned (JavaScript functions are objects). -/
inductive JsFlowCandidate where
  | flowObj
  | plainStep
  | stepWithProps (hasF hasMapError : Bool)
deriving DecidableEq

/-- Whether `v._f !== undefined`. -/
def hasFProp : JsFlowCandidate → Bool
  | .flowObj => true
  | .plainStep => false
  | .stepWithProps hF _ => hF

/-- Whether `v._mapError !== undefined`. -/
def hasMapErrorProp : JsFlowCandidate → Bool
  | .flowObj => true
  | .plainStep => false
  | .stepWithProps _ hME => hME

/-- Static `Flow.isFlow`: `flow._f !== undefined && flow._mapError !== undefined`. -/
def isFlow (v : JsFlowCandidate) : Bool :=
  hasFProp v && hasMapErrorProp v

/-! ### Basic lemmas about the partition and the layer views -/

theorem partitionArray_loop (p : α → Bool) (l : List α) (acc : List α × List α) :
    l.foldl
      (fun acc t => if p t then (acc.1 ++ [t], acc.2) else (acc.1, acc.2 ++ [t]))
      acc
      = (acc.1 ++ l.filter p, acc.2 ++ l.filter fun x => !p x) := by
  induction l generalizing acc with
  | nil => simp
  | cons x xs ih =>
    simp only [List.foldl_cons, List.filter_cons]
    cases hp : p x <;> simp [ih, hp]

theorem partitionArray_eq (p : α → Bool) (l : List α) :
    partitionArray l p = (l.filter p, l.filter fun x => !p x) := by
  simpa [partitionArray] using partitionArray_loop p l ([], [])

theorem castLefts_lefts (L : Layer T E) :
    castLefts (U := U) (L.filter FlowEither.isLeft)
      = (leftsOf L).map FlowEither.left := by
  induction L with
  | nil => rfl
  | cons x xs ih =>
    cases x <;>
      simp [castLefts, leftsOf, FlowEither.isLeft, List.filter_cons,
        List.filterMap_cons, ih]

theorem rights_extract (L : Layer T E) :
    (L.filter fun x => !x.isLeft).filterMap FlowEither.rightValue
      = rightsOf L := by
  induction L with
  | nil => rfl
  | cons x xs ih =>
    cases x <;>
      simp_all [rightsOf, FlowEither.isLeft, FlowEither.rightValue,
        List.filter_cons, List.filterMap_cons]

theorem chain_exec_ok (self : Flow S T E Err) (flows : List (Flow T U E Err))
    (s : S) (L : Layer T E) (h : self.f s = Except.ok L) :
    (self.chain flows).exec s =
      Except.ok ((leftsOf L).map FlowEither.left ++
        ((rightsOf L).flatMap fun rv =>
          flows.map fun fl => execCaught self.mapError fl rv).flatten) := by
  simp [Flow.chain, Flow.exec, h, partitionArray_eq, castLefts_lefts,
    rights_extract]

theorem converge_exec_ok (self : Flow S T E Err)
    (flows : List (Flow (List T) U E Err))
    (s : S) (L : Layer T E) (h : self.f s = Except.ok L) :
    (self.converge flows).exec s =
      Except.ok ((leftsOf L).map FlowEither.left ++
        (flows.map fun fl =>
          execCaught self.mapError fl (rightsOf L)).flatten) := by
  simp [Flow.converge, Flow.exec, h, partitionArray_eq, castLefts_lefts,
    rights_extract]

theorem flatten_singletons (l : List α) (g : α → β) :
    (l.map fun a => [g a]).flatten = l.map g := by
  induction l with
  | nil => rfl
  | cons x xs ih => simp [ih]

theorem flatMap_singleton_flatten (l : List α) (g : α → β) :
    (l.flatMap fun a => [[g a]]).flatten = l.map g := by
  induction l with
  | nil => rfl
  | cons x xs ih => simp [ih]

/-! ### Concrete fixtures used by the witnesses -/

def sampleLayer : Layer Nat Nat :=
  [FlowEither.left 7, FlowEither.right 1, FlowEither.right 2]

def sampleFlow : Flow Nat Nat Nat Nat :=
  ⟨fun _ => Except.ok sampleLayer, fun e => e + 100⟩

def sampleStep : Step Nat Nat Nat Nat :=
  fun t => StepOutcome.value (Layerable.bare (t + 1))

def sampleBatchStep : Step (List Nat) Nat Nat Nat :=
  fun ts => StepOutcome.value (Layerable.bare ts.length)

def sampleThrowStep : Step Nat Nat Nat Nat :=
  fun _ => StepOutcome.thrown 3

def sampleRejectStep : Step Nat Nat Nat Nat :=
  fun _ => StepOutcome.rejected 4

/-- A downstream flow whose execution promise always rejects; its own mapper
adds 1000, so any output built from the invoking flow's mapper is visibly
different from one built with this mapper. -/
def sampleRejectFlow : Flow Nat Nat Nat Nat :=
  ⟨fun _ => Except.error 5, fun e => e + 1000⟩

def sampleRejectBatchFlow : Flow (List Nat) Nat Nat Nat :=
  ⟨fun _ => Except.error 6, fun e => e + 1000⟩

end ConvFlow

namespace ConvFlow

/-! ### Claim theorems -/

/-- C1: for every flow, input `s` and list of downstream flows-or-steps
supplied to `then`, the composed flow first runs the original flow to a
layer `L`, partitions it into lefts and right payloads, invokes every
downstream flow (bare steps lifted with the invoking flow's mapper) on each
right payload — a `rights.length × flows.length` cross product — and
resolves with the lefts passed through unchanged followed by the flattened
downstream results, grouped by right value (outer) then by downstream flow
in supply order (inner). -/
theorem then_cross_product (F : Flow S T E Err) (s : S) (L : Layer T E)
    (fos : List (FlowOrStep T U E Err)) (h : F.f s = Except.ok L) :
    (F.andThen fos).exec s =
      Except.ok ((leftsOf L).map FlowEither.left ++
        ((rightsOf L).flatMap fun rv =>
          (mkFlows F.mapError fos).map fun fl =>
            execCaught F.mapError fl rv).flatten) :=
  chain_exec_ok F (mkFlows F.mapError fos) s L h

/-- Witness for C1: a concrete flow with one left and two rights, chained
with one bare step; the hypothesis and the fully evaluated layer are checked
at that input. -/
theorem then_cross_product_witness :
    sampleFlow.f 0 = Except.ok sampleLayer ∧
    (sampleFlow.andThen [FlowOrStep.step sampleStep]).exec 0 =
      Except.ok ((leftsOf sampleLayer).map FlowEither.left ++
        ((rightsOf sampleLayer).flatMap fun rv =>
          (mkFlows sampleFlow.mapError [FlowOrStep.step sampleStep]).map fun fl =>
            execCaught sampleFlow.mapError fl rv).flatten) ∧
    (sampleFlow.andThen [FlowOrStep.step sampleStep]).exec 0 =
      Except.ok [FlowEither.left 7, FlowEither.right 2, FlowEither.right 3] :=
  ⟨rfl,
   then_cross_product sampleFlow 0 sampleLayer [FlowOrStep.step sampleStep] rfl,
   rfl⟩

/-- C2: for every flow, input `s` and list of downstream flows-or-steps
supplied to `to`, each downstream flow is invoked exactly once with the full
ordered list of right payloads of the current layer, and the result is the
lefts passed through unchanged followed by the flattened per-flow results in
supply order. -/
theorem to_converges_batch (F : Flow S T E Err) (s : S) (L : Layer T E)
    (fos : List (FlowOrStep (List T) U E Err)) (h : F.f s = Except.ok L) :
    (F.to fos).exec s =
      Except.ok ((leftsOf L).map FlowEither.left ++
        ((mkFlows F.mapError fos).map fun fl =>
          execCaught F.mapError fl (rightsOf L)).flatten) :=
  converge_exec_ok F (mkFlows F.mapError fos) s L h

/-- Witness for C2: the same concrete flow converged through one bare batch
step, which receives the whole two-element rights list. -/
theorem to_converges_batch_witness :
    sampleFlow.f 0 = Except.ok sampleLayer ∧
    (sampleFlow.to [FlowOrStep.step sampleBatchStep]).exec 0 =
      Except.ok ((leftsOf sampleLayer).map FlowEither.left ++
        ((mkFlows sampleFlow.mapError [FlowOrStep.step sampleBatchStep]).map fun fl =>
          execCaught sampleFlow.mapError fl (rightsOf sampleLayer)).flatten) ∧
    (sampleFlow.to [FlowOrStep.step sampleBatchStep]).exec 0 =
      Except.ok [FlowEither.left 7, FlowEither.right 2] :=
  ⟨rfl,
   to_converges_batch sampleFlow 0 sampleLayer [FlowOrStep.step sampleBatchStep] rfl,
   rfl⟩

/-- C3: `lift(steps).exec(s)` resolves with the per-step normalized layers
concatenated in step order, so its length is the sum of the individual
layer lengths, and each step's contribution is a function of that step
alone (a failing step cannot alter another step's block). -/
theorem lift_concat_step_layers (steps : List (Step S T E Err))
    (m : Err → E) (s : S) :
    (Flow.lift steps m).exec s =
      Except.ok ((steps.map fun st => settleStep m (tryStep m st s)).flatten) ∧
    ((steps.map fun st => settleStep m (tryStep m st s)).flatten).length =
      (steps.map fun st => (settleStep m (tryStep m st s)).length).sum := by
  constructor
  · simp [Flow.lift, Flow.exec, List.map_map, Function.comp_def]
  · simp [List.length_flatten, List.map_map, Function.comp_def]

/-- C9: lifting the empty list of steps yields, on every input, the empty
layer — there is no step whose invocation could contribute an element. -/
theorem lift_empty_steps (m : Err → E) (s : S) :
    (Flow.lift ([] : List (Step S T E Err)) m).exec s =
      Except.ok ([] : Layer T E) :=
  rfl

/-- C10: normalization is idempotent — `normalizeResult` applied to a layer
(an array of values that are already `Either`s) returns that layer element
for element, because `liftEither` is the identity on an `Either`. -/
theorem normalizeResult_idempotent (L : Layer T E) :
    normalizeResult (Layerable.arr (L.map Elem.either)) = L := by
  simp [normalizeResult, List.map_map, Function.comp_def, liftEither]

end ConvFlow

namespace ConvFlow

/-- C4: a step that throws synchronously or rejects with `e` lifts, under
mapper `m`, to a flow resolving with the one-element layer
`[left (m e)]`; with the mapper omitted (the identity default) the layer is
`[left e]`; and a lifted flow's promise always resolves, whatever its steps
do. -/
theorem lift_captures_step_failure
    (f : Step S T E Err) (m : Err → E) (s : S) (e : Err)
    (h : f s = StepOutcome.thrown e ∨ f s = StepOutcome.rejected e)
    (g : Step S2 T2 Err Err) (s2 : S2) (e2 : Err)
    (h2 : g s2 = StepOutcome.thrown e2 ∨ g s2 = StepOutcome.rejected e2) :
    (Flow.liftSingle f m).exec s = Except.ok [FlowEither.left (m e)] ∧
    (Flow.liftDefault g).exec s2 = Except.ok [FlowEither.left e2] ∧
    ∀ steps : List (Step S T E Err),
      ∃ L, (Flow.lift steps m).exec s = Except.ok L := by
  refine ⟨?_, ?_, fun steps => ⟨_, rfl⟩⟩
  · rcases h with h | h <;>
      simp [Flow.liftSingle, Flow.lift, Flow.exec, tryStep, settleStep, h,
        normalizeError, normalizeResult, liftEither]
  · rcases h2 with h2 | h2 <;>
      simp [Flow.liftDefault, Flow.liftSingle, Flow.lift, Flow.exec,
        Flow.errIdentity, tryStep, settleStep, h2, normalizeError,
        normalizeResult, liftEither]

/-- Witness for C4: a synchronously throwing step under the mapper `+ 100`
and a rejecting step under the omitted-mapper default. -/
theorem lift_captures_step_failure_witness :
    (sampleThrowStep 0 = StepOutcome.thrown 3 ∨
      sampleThrowStep 0 = StepOutcome.rejected 3) ∧
    (sampleRejectStep 0 = StepOutcome.thrown 4 ∨
      sampleRejectStep 0 = StepOutcome.rejected 4) ∧
    ((Flow.liftSingle sampleThrowStep (fun e => e + 100)).exec 0 =
        Except.ok [FlowEither.left 103] ∧
      (Flow.liftDefault sampleRejectStep).exec 0 =
        Except.ok [FlowEither.left 4] ∧
      ∀ steps : List (Step Nat Nat Nat Nat),
        ∃ L, (Flow.lift steps (fun e => e + 100)).exec 0 = Except.ok L) :=
  ⟨Or.inl rfl, Or.inr rfl,
   lift_captures_step_failure sampleThrowStep (fun e => e + 100) 0 3
     (Or.inl rfl) sampleRejectStep 0 4 (Or.inr rfl)⟩

/-- C5: `normalizeResult` maps an array element-wise through `liftEither`
(same length, order preserved, an `Either` kept as is, a bare value wrapped
with `right`), sends a single `Either` to the one-element layer holding it,
and any other bare value `v` to `[right v]`. -/
theorem normalizeResult_shapes (xs : List (Elem T E)) (x : FlowEither E T)
    (t : T) :
    normalizeResult (Layerable.arr xs) = xs.map liftEither ∧
    (normalizeResult (Layerable.arr xs)).length = xs.length ∧
    (∀ i : Nat, (normalizeResult (Layerable.arr xs))[i]? =
      (xs[i]?).map liftEither) ∧
    (∀ y : FlowEither E T, liftEither (Elem.either y) = y) ∧
    (∀ v : T, liftEither (Elem.bare v : Elem T E) = FlowEither.right v) ∧
    normalizeResult (Layerable.single x) = [x] ∧
    normalizeResult (Layerable.bare t : Layerable T E) =
      [FlowEither.right t] := by
  refine ⟨rfl, by simp [normalizeResult], fun i => ?_, fun y => rfl,
    fun v => rfl, rfl, rfl⟩
  simp [normalizeResult]

end ConvFlow

namespace ConvFlow

/-- C6: terminated elements are inert — when the upstream layer is `L`, a
`then` stage and a `to` stage each resolve with the left elements of `L`
passed through unchanged (same termination values, same order, ahead of all
downstream results), and the downstream results are a function of the right
payloads alone (`chainTail` / `convergeTail` take only `rightsOf L`), so no
downstream flow or step is ever invoked on a left element's payload. -/
theorem err_elements_inert (F : Flow S T E Err) (s : S) (L : Layer T E)
    (h : F.f s = Except.ok L)
    (fosThen : List (FlowOrStep T U E Err))
    (fosTo : List (FlowOrStep (List T) U E Err)) :
    (F.andThen fosThen).exec s =
      Except.ok ((leftsOf L).map FlowEither.left ++
        chainTail F.mapError (mkFlows F.mapError fosThen) (rightsOf L)) ∧
    (F.to fosTo).exec s =
      Except.ok ((leftsOf L).map FlowEither.left ++
        convergeTail F.mapError (mkFlows F.mapError fosTo) (rightsOf L)) :=
  ⟨chain_exec_ok F (mkFlows F.mapError fosThen) s L h,
   converge_exec_ok F (mkFlows F.mapError fosTo) s L h⟩

/-- Witness for C6: the concrete flow with one left, composed both ways;
the left `7` survives both stages unchanged and first. -/
theorem err_elements_inert_witness :
    sampleFlow.f 0 = Except.ok sampleLayer ∧
    ((sampleFlow.andThen [FlowOrStep.step sampleStep]).exec 0 =
      Except.ok ((leftsOf sampleLayer).map FlowEither.left ++
        chainTail sampleFlow.mapError
          (mkFlows sampleFlow.mapError [FlowOrStep.step sampleStep])
          (rightsOf sampleLayer)) ∧
    (sampleFlow.to [FlowOrStep.step sampleBatchStep]).exec 0 =
      Except.ok ((leftsOf sampleLayer).map FlowEither.left ++
        convergeTail sampleFlow.mapError
          (mkFlows sampleFlow.mapError [FlowOrStep.step sampleBatchStep])
          (rightsOf sampleLayer))) :=
  ⟨rfl,
   err_elements_inert sampleFlow 0 sampleLayer rfl
     [FlowOrStep.step sampleStep] [FlowOrStep.step sampleBatchStep]⟩

/-- C8: when an invoked downstream flow's execution promise rejects, the
rejection is converted to the one-element layer `[left (m e)]` with `m` the
mapper of the invoking flow — the downstream flow's own mapper (universally
quantified here as part of `G`/`G2`) never appears in the result. -/
theorem downstream_rejection_uses_invoking_mapper
    (F : Flow S T E Err) (s : S) (L : Layer T E)
    (h : F.f s = Except.ok L)
    (G : Flow T U E Err) (eFn : T → Err)
    (hG : ∀ t, G.f t = Except.error (eFn t))
    (G2 : Flow (List T) U E Err) (e2 : Err)
    (hG2 : G2.f (rightsOf L) = Except.error e2) :
    (F.andThen [FlowOrStep.flow G]).exec s =
      Except.ok ((leftsOf L).map FlowEither.left ++
        (rightsOf L).map fun t => FlowEither.left (F.mapError (eFn t))) ∧
    (F.to [FlowOrStep.flow G2]).exec s =
      Except.ok ((leftsOf L).map FlowEither.left ++
        [FlowEither.left (F.mapError e2)]) := by
  constructor
  · rw [show F.andThen [FlowOrStep.flow G]
        = F.chain (mkFlows F.mapError [FlowOrStep.flow G]) from rfl,
      chain_exec_ok F _ s L h]
    simp [mkFlows, execCaught, Flow.exec, hG, normalizeError,
      flatMap_singleton_flatten]
  · rw [show F.to [FlowOrStep.flow G2]
        = F.converge (mkFlows F.mapError [FlowOrStep.flow G2]) from rfl,
      converge_exec_ok F _ s L h]
    simp [mkFlows, execCaught, Flow.exec, hG2, normalizeError]

/-- Witness for C8: downstream flows whose own mapper adds 1000 reject with
5 and 6; the results carry `105` and `106` — the invoking flow's `+ 100`
mapper, not `+ 1000`. -/
theorem downstream_rejection_uses_invoking_mapper_witness :
    sampleFlow.f 0 = Except.ok sampleLayer ∧
    (∀ t, sampleRejectFlow.f t = Except.error 5) ∧
    sampleRejectBatchFlow.f (rightsOf sampleLayer) = Except.error 6 ∧
    ((sampleFlow.andThen [FlowOrStep.flow sampleRejectFlow]).exec 0 =
      Except.ok ((leftsOf sampleLayer).map FlowEither.left ++
        (rightsOf sampleLayer).map fun _ =>
          FlowEither.left (sampleFlow.mapError 5)) ∧
    (sampleFlow.to [FlowOrStep.flow sampleRejectBatchFlow]).exec 0 =
      Except.ok ((leftsOf sampleLayer).map FlowEither.left ++
        [FlowEither.left (sampleFlow.mapError 6)])) ∧
    (sampleFlow.andThen [FlowOrStep.flow sampleRejectFlow]).exec 0 =
      Except.ok [FlowEither.left 7, FlowEither.left 105, FlowEither.left 105] :=
  ⟨rfl, fun _ => rfl, rfl,
   downstream_rejection_uses_invoking_mapper sampleFlow 0 sampleLayer rfl
     sampleRejectFlow (fun _ => 5) (fun _ => rfl)
     sampleRejectBatchFlow 6 rfl,
   rfl⟩

/-- C7 counterexample: a bare step function that has been given defined
properties named `_f` and `_mapError` is not a value constructed by the
`Flow` constructor, yet `isFlow` classifies it as a flow — the duck-typed
field check produces a false positive. -/
theorem isFlow_duck_type_false_positive :
    isFlow (JsFlowCandidate.stepWithProps true true) = true ∧
    JsFlowCandidate.stepWithProps true true ≠ JsFlowCandidate.flowObj := by
  decide

/-- C7 amended: `isFlow` returns true exactly when both fields named `_f`
and `_mapError` are defined on the value — true on every constructor-built
flow, false on a bare step carrying neither property, but true (a
misclassification) on a step function that carries both. -/
theorem isFlow_field_presence_characterization (hF hME : Bool) :
    isFlow JsFlowCandidate.flowObj = true ∧
    isFlow JsFlowCandidate.plainStep = false ∧
    isFlow (JsFlowCandidate.stepWithProps hF hME) = (hF && hME) :=
  ⟨rfl, rfl, rfl⟩

end ConvFlow
